import Mathlib

/-!
Verification of the task-reminder tool's notification-scheduling core.

This file gives a shallow embedding, in Lean 4, of the parts of the
repository that the specification's claims are about:

  * `utils/schedule.py` — pure schedule calculation (`get_schedule_config`,
    `get_task_base_time`, `calculate_notification_times`);
  * `task_manager.py` — the trigger de-duplication check
    (`_should_trigger_notification`) and the completion predicate
    (`_is_task_completed`);
  * `config.py` — the persistence-level list operations (`add_task`,
    `update_task`, `delete_task`, `add_log`, `load_tasks`,
    `is_date_included`);
  * `utils/file_io.py` — `atomic_write_json`'s failure-path state handling.

Python `datetime` values are modelled as a record of an absolute day index
plus hour / minute / second / microsecond fields; `datetime` subtraction and
`timedelta` arithmetic are exact integer arithmetic on microseconds, which
is what CPython computes.  JSON documents on disk are modelled by a small
inductive type, and exceptions by `Except`.
-/

namespace TaskReminder

/-- A point in time, as Python's `datetime`: `day` is the absolute day
index on the timeline (the proleptic ordinal), and `hour`/`minute`/
`second`/`usec` are the within-day fields.  Values produced by real
`datetime` operations always satisfy `DateTime.Valid`. -/
structure DateTime where
  day : Int
  hour : Nat
  minute : Nat
  second : Nat
  usec : Nat
deriving DecidableEq, Repr

/-- Well-formed field ranges, as maintained by Python `datetime`. -/
def DateTime.Valid (dt : DateTime) : Prop :=
  dt.hour < 24 ∧ dt.minute < 60 ∧ dt.second < 60 ∧ dt.usec < 1000000

instance (dt : DateTime) : Decidable dt.Valid := by
  unfold DateTime.Valid; infer_instance

/-- Microseconds since day 0; `a - b` on two datetimes is exactly
`toMicros a - toMicros b` microseconds. -/
def DateTime.toMicros (dt : DateTime) : Int :=
  (dt.day * 86400 + dt.hour * 3600 + dt.minute * 60 + dt.second) * 1000000
    + dt.usec

/-- `timedelta` addition of `m` minutes (possibly negative), renormalised
to day/field form — what Python's `datetime ± timedelta(minutes=m)`
produces. -/
def DateTime.addMinutes (dt : DateTime) (m : Int) : DateTime :=
  let t : Int := dt.toMicros + m * 60000000
  let r : Nat := (t % 86400000000).toNat
  ⟨t / 86400000000,
   r / 3600000000,
   (r % 3600000000) / 60000000,
   (r % 60000000) / 1000000,
   r % 1000000⟩

/-- `abs((current_time - target_time).total_seconds())`, held in
microseconds to stay exact. -/
def timeDiffMicros (current target : DateTime) : Nat :=
  (current.toMicros - target.toMicros).natAbs

/-- The de-duplication key built by `_should_trigger_notification`:
`f"{task_id}_{target_time:%Y-%m-%d_%H:%M}_{notification_type}"`.
The `strftime` pattern renders the target's date and hour:minute (seconds
are dropped by the format), so the key is the tuple of task id, target
day, target hour, target minute and notification kind. -/
structure NotificationKey where
  taskId : String
  day : Int
  hour : Nat
  minute : Nat
  kind : String
deriving DecidableEq, Repr

/-- Key construction from a task id, target time and notification type. -/
def mkNotificationKey (taskId : String) (target : DateTime) (kind : String) :
    NotificationKey :=
  ⟨taskId, target.day, target.hour, target.minute, kind⟩

/-- `TaskManager.active_notifications`: a dictionary whose keys are the
fired notification keys (the stored value is always `True`, so only key
membership matters). -/
abbrev FiredSet := List NotificationKey

/-- `TaskManager._should_trigger_notification`: returns whether to fire,
together with the updated fired-set.  A key already present short-circuits
to `False`; otherwise the check succeeds iff the absolute time difference
is at most 60 seconds, and on success the key is recorded. -/
def shouldTriggerNotification (fired : FiredSet) (current target : DateTime)
    (taskId kind : String) : Bool × FiredSet :=
  let key := mkNotificationKey taskId target kind
  if key ∈ fired then
    (false, fired)
  else if timeDiffMicros current target ≤ 60 * 1000000 then
    (true, key :: fired)
  else
    (false, fired)

/-! ## Decimal formatting helpers (Python `%d` / zero-padded `%0Nd`) -/

/-- Decimal digits of `n`, least significant first, by repeated division;
the first argument is structural fuel (`n + 1` always suffices). -/
def natRevDigitsAux : Nat → Nat → List Nat
  | 0, _ => []
  | fuel + 1, n => if n < 10 then [n] else n % 10 :: natRevDigitsAux fuel (n / 10)

/-- Decimal digits of `n`, least significant first. -/
def natRevDigits (n : Nat) : List Nat := natRevDigitsAux (n + 1) n

/-- The character for a decimal digit. -/
def digitChar : Nat → Char
  | 0 => '0' | 1 => '1' | 2 => '2' | 3 => '3' | 4 => '4'
  | 5 => '5' | 6 => '6' | 7 => '7' | 8 => '8' | _ => '9'

/-- Inverse of `digitChar` on decimal digits (other characters map to 0). -/
def charDigitVal (c : Char) : Nat :=
  match c with
  | '0' => 0 | '1' => 1 | '2' => 2 | '3' => 3 | '4' => 4
  | '5' => 5 | '6' => 6 | '7' => 7 | '8' => 8 | '9' => 9
  | _ => 0

/-- Characters of Python's `f"{n:0{width}d}"`: the decimal rendering of
`n`, most significant digit first, left-padded with zeros to `width`. -/
def padNatChars (width n : Nat) : List Char :=
  let ds := (natRevDigits n).reverse.map digitChar
  List.replicate (width - ds.length) '0' ++ ds

/-- Python `f"{n:03d}"` as a string. -/
def padNat3 (n : Nat) : String := String.mk (padNatChars 3 n)

/-! ## Task records and the schedule calculator (`utils/schedule.py`) -/

/-- A task's optional `schedule` object: each field may be absent. -/
structure ScheduleFields where
  pre_notification_minutes : Option Int
  warning_minutes : Option Int
  snooze_minutes : Option Int
deriving DecidableEq, Repr

/-- A task record as persisted in `tasks.json`.  `time` is optional
since `task.get("time")` tolerates its absence. -/
structure Task where
  id : String
  time : Option String
  task_names : List String
  enabled : Bool
  created_date : String
  schedule : Option ScheduleFields
deriving DecidableEq, Repr

/-- Resolved schedule configuration (all three fields defaulted). -/
structure ScheduleConfig where
  pre_notification_minutes : Int
  warning_minutes : Int
  snooze_minutes : Int
deriving DecidableEq, Repr

/-- `DEFAULT_PRE_NOTIFICATION_MINUTES = 5`, etc. -/
def DEFAULT_MINUTES : Int := 5

/-- `get_schedule_config`: reads `task.schedule` (an absent key reads as
the empty object) and defaults each field independently to 5. -/
def get_schedule_config (task : Task) : ScheduleConfig :=
  let schedule := task.schedule.getD ⟨none, none, none⟩
  ⟨schedule.pre_notification_minutes.getD DEFAULT_MINUTES,
   schedule.warning_minutes.getD DEFAULT_MINUTES,
   schedule.snooze_minutes.getD DEFAULT_MINUTES⟩

/-! Python `int(str)` parsing, scoped to ASCII strings: optional
surrounding whitespace, an optional sign, then a nonempty digit sequence
in which single underscores may separate digits. -/

/-- Python whitespace stripped by `int()` (ASCII subset). -/
def isPySpace (c : Char) : Bool :=
  c = ' ' ∨ c = '\t' ∨ c = '\n' ∨ c = '\r' ∨ c = '\x0b' ∨ c = '\x0c'

/-- `str.strip()` on a character list. -/
def pyStrip (l : List Char) : List Char :=
  ((l.dropWhile isPySpace).reverse.dropWhile isPySpace).reverse

/-- After the first digit: digits, with single underscores allowed only
between digits. -/
def pyDigitsRest : List Char → Bool
  | [] => true
  | '_' :: c :: rest => c.isDigit && pyDigitsRest rest
  | c :: rest => c.isDigit && pyDigitsRest rest

/-- A valid Python decimal digit part: nonempty, starts with a digit. -/
def pyDigitPart : List Char → Bool
  | [] => false
  | c :: rest => c.isDigit && pyDigitsRest rest

/-- Numeric value of a digit part (underscores are separators). -/
def pyDigitsVal (l : List Char) : Nat :=
  (l.filter (fun c => c ≠ '_')).foldl (fun a c => a * 10 + charDigitVal c) 0

/-- Python `int(s)`: `none` models the `ValueError` raised on a
malformed literal. -/
def pyToInt (s : String) : Option Int :=
  let l := pyStrip s.data
  match l with
  | '+' :: rest => if pyDigitPart rest then some (pyDigitsVal rest) else none
  | '-' :: rest => if pyDigitPart rest then some (-(pyDigitsVal rest : Int)) else none
  | _ => if pyDigitPart l then some (pyDigitsVal l) else none

/-- Python `str.split(sep)` for a single-character separator, on the
character list: `"".split(":") = [""]`, `":".split(":") = ["", ""]`. -/
def splitChars (sep : Char) : List Char → List (List Char)
  | [] => [[]]
  | c :: rest =>
    match splitChars sep rest with
    | [] => [[c]]
    | g :: gs => if c = sep then [] :: g :: gs else (c :: g) :: gs

/-- `get_task_base_time`: parses `task.time` as `"H:M"`; `None` on a
missing or falsy field, a parse failure (`ValueError`) or an
out-of-range hour/minute; otherwise `current_time.replace(hour=hour,
minute=minute, second=0, microsecond=0)`. -/
def get_task_base_time (task : Task) (current_time : DateTime) :
    Option DateTime :=
  match task.time with
  | none => none
  | some s =>
    if s = "" then none
    else
      match splitChars ':' s.data with
      | [hs, ms] =>
        match pyToInt (String.mk hs), pyToInt (String.mk ms) with
        | some hour, some minute =>
          if 0 ≤ hour ∧ hour ≤ 23 ∧ 0 ≤ minute ∧ minute ≤ 59 then
            some ⟨current_time.day, hour.toNat, minute.toNat, 0, 0⟩
          else none
        | _, _ => none
      | _ => none

/-- The triple returned by `calculate_notification_times`. -/
structure NotificationTimes where
  pre : Option DateTime
  main : Option DateTime
  warning : Option DateTime
deriving DecidableEq, Repr

/-- `calculate_notification_times`: computes the base time unless one is
supplied, and offsets it by the resolved schedule configuration. -/
def calculate_notification_times (task : Task) (current_time : DateTime)
    (base_time : Option DateTime) : NotificationTimes :=
  let base := match base_time with
    | none => get_task_base_time task current_time
    | some b => some b
  match base with
  | none => ⟨none, none, none⟩
  | some bt =>
    let cfg := get_schedule_config task
    ⟨some (bt.addMinutes (-cfg.pre_notification_minutes)),
     some bt,
     some (bt.addMinutes cfg.warning_minutes)⟩

/-! ## Log entries and persistence-level operations (`config.py`) -/

/-- A log entry as persisted in `logs.json`. -/
structure LogEntry where
  date : String
  time : String
  task_id : String
  task_name : String
  completed : Bool
deriving DecidableEq, Repr

/-- `Config.add_task`: assigns `id = f"task_{len(tasks) + 1:03d}"`, stamps
`created_date` with today's date, appends the new record and returns the
pair of the assigned id and the saved collection. -/
def add_task (tasks : List Task) (time : String) (task_names : List String)
    (enabled : Bool) (today : String) : String × List Task :=
  let task_id := "task_" ++ padNat3 (tasks.length + 1)
  let new_task : Task := ⟨task_id, some time, task_names, enabled, today, none⟩
  (task_id, tasks ++ [new_task])

/-- The in-place field update `update_task` applies to the first task
whose id matches: only the provided fields change. -/
def applyTaskUpdate (t : Task) (time : Option String)
    (task_names : Option (List String)) (enabled : Option Bool) : Task :=
  ⟨t.id,
   match time with
   | some v => some v
   | none => t.time,
   task_names.getD t.task_names,
   enabled.getD t.enabled,
   t.created_date,
   t.schedule⟩

/-- `Config.update_task`: walks the collection, updates the provided
fields of the first task whose id matches, and stops (`break`). -/
def update_task : List Task → String → Option String →
    Option (List String) → Option Bool → List Task
  | [], _, _, _, _ => []
  | t :: ts, task_id, time, task_names, enabled =>
    if t.id = task_id then applyTaskUpdate t time task_names enabled :: ts
    else t :: update_task ts task_id time task_names enabled

/-- `Config.delete_task`: keeps the tasks whose id differs. -/
def delete_task (tasks : List Task) (task_id : String) : List Task :=
  tasks.filter (fun t => t.id ≠ task_id)

/-- One step of task-store evolution: the operations `add_task` and
`delete_task` exposed by the persistence layer. -/
inductive TaskStoreOp where
  | add (time : String) (task_names : List String) (enabled : Bool)
      (today : String)
  | del (task_id : String)
deriving DecidableEq, Repr

/-- Apply one store operation to the persisted collection. -/
def applyTaskStoreOp (tasks : List Task) : TaskStoreOp → List Task
  | .add time task_names enabled today =>
    (add_task tasks time task_names enabled today).2
  | .del task_id => delete_task tasks task_id

/-- The collection reached from the empty store by a sequence of
operations. -/
def runTaskStoreOps (ops : List TaskStoreOp) : List Task :=
  ops.foldl applyTaskStoreOp []

/-- `Config.add_log`: appends a log entry stamped with the current date
and time; nothing is de-duplicated or removed. -/
def add_log (logs : List LogEntry) (task_id task_name : String)
    (completed : Bool) (nowDate nowTime : String) : List LogEntry :=
  logs ++ [⟨nowDate, nowTime, task_id, task_name, completed⟩]

/-- `Config.get_logs_by_date`: the entries whose `date` matches exactly. -/
def get_logs_by_date (logs : List LogEntry) (date : String) : List LogEntry :=
  logs.filter (fun log => log.date = date)

/-! ## The completion predicate (`TaskManager._is_task_completed`) -/

/-- `TaskManager._is_task_completed`: counts the `completed=true` entries
for the task id among that date's logs and compares the count with the
current number of sub-items; a missing task, or a task with no
sub-items, is never fully completed. -/
def is_task_completed (tasks : List Task) (logs : List LogEntry)
    (task_id date : String) : Bool :=
  let dayLogs := get_logs_by_date logs date
  let completedLogs :=
    dayLogs.filter (fun log => log.task_id = task_id ∧ log.completed)
  match tasks.find? (fun t => t.id = task_id) with
  | none => false
  | some task =>
    let expected_count := task.task_names.length
    let actual_count := completedLogs.length
    decide (actual_count ≥ expected_count ∧ expected_count > 0)

/-! ## Calendar dates and day inclusion (`Config.is_date_included`) -/

/-- A calendar date, as Python's `datetime.date`. -/
structure PyDate where
  year : Nat
  month : Nat
  day : Nat
deriving DecidableEq, Repr

/-- Gregorian leap-year rule. -/
def isLeapYear (y : Nat) : Bool := y % 4 = 0 ∧ (y % 100 ≠ 0 ∨ y % 400 = 0)

/-- Days in month `m` of year `y` (months numbered from 1). -/
def daysInMonth (y m : Nat) : Nat :=
  if m = 2 then (if isLeapYear y then 29 else 28)
  else if m = 4 ∨ m = 6 ∨ m = 9 ∨ m = 11 then 30
  else 31

/-- Days in year `y` strictly before month `m`. -/
def daysBeforeMonth (y m : Nat) : Nat :=
  ((List.range (m - 1)).map (fun i => daysInMonth y (i + 1))).sum

/-- Python `date.toordinal()`: day number in the proleptic Gregorian
calendar, with 0001-01-01 as day 1. -/
def toOrdinal (d : PyDate) : Nat :=
  365 * (d.year - 1) + (d.year - 1) / 4 - (d.year - 1) / 100
    + (d.year - 1) / 400 + daysBeforeMonth d.year d.month + d.day

/-- Python `date.weekday()`: Monday is 0 … Sunday is 6
(0001-01-01 is a Monday in the proleptic Gregorian calendar). -/
def pyWeekday (d : PyDate) : Nat := (toOrdinal d + 6) % 7

/-- `f"{year:04d}-{month:02d}"`, the month key of the override map. -/
def fmtMonthKey (year month : Nat) : String :=
  String.mk (padNatChars 4 year ++ '-' :: padNatChars 2 month)

/-- `date_obj.strftime("%Y-%m-%d")` / `f"{y:04d}-{m:02d}-{d:02d}"`. -/
def fmtDateStr (year month day : Nat) : String :=
  String.mk (padNatChars 4 year ++ '-' :: padNatChars 2 month
    ++ '-' :: padNatChars 2 day)

/-- `calendar_overrides.json`: a JSON object mapping month keys to
objects mapping date strings to booleans, as an association list. -/
abbrev CalendarOverrides := List (String × List (String × Bool))

/-- `Config.get_month_overrides`: the override object stored under the
month key, or the empty object. -/
def get_month_overrides (overrides : CalendarOverrides) (year month : Nat) :
    List (String × Bool) :=
  (overrides.lookup (fmtMonthKey year month)).getD []

/-- `Config.is_date_included`: an override for the exact date wins;
otherwise the weekend rule applies when `exclude_weekends` is set;
otherwise every day is included. -/
def is_date_included (overrides : CalendarOverrides)
    (exclude_weekends : Bool) (d : PyDate) : Bool :=
  let month_overrides := get_month_overrides overrides d.year d.month
  match month_overrides.lookup (fmtDateStr d.year d.month d.day) with
  | some b => b
  | none =>
    if exclude_weekends then decide (pyWeekday d < 5)
    else true

/-! ## Loading `tasks.json` (`Config.load_tasks`) -/

/-- A parsed JSON value. -/
inductive Json where
  | null
  | bool (b : Bool)
  | num (n : Int)
  | str (s : String)
  | arr (elems : List Json)
  | obj (fields : List (String × Json))

/-- Python-level errors that reach `load_tasks`'s caller. -/
inductive PyError where
  | attributeError
deriving DecidableEq, Repr

/-- The observable state of the tasks file when `load_tasks` runs. -/
inductive TasksFileState where
  /-- The file does not exist (`FileNotFoundError`). -/
  | missing
  /-- The file exists but `json.load` fails (`JSONDecodeError`). -/
  | undecodable
  /-- The file holds the JSON document `doc`. -/
  | holds (doc : Json)

/-- `data.get("tasks", [])`: dictionary lookup with a default on a JSON
object; any non-object value has no `.get` attribute and raises
`AttributeError`. -/
def pyDictGet (doc : Json) (key : String) (default : Json) :
    Except PyError Json :=
  match doc with
  | .obj fields => .ok ((fields.lookup key).getD default)
  | _ => .error .attributeError

/-- `Config.load_tasks`: returns `data.get("tasks", [])` from the parsed
file; `FileNotFoundError` and `JSONDecodeError` are caught and yield the
empty list, every other exception propagates. -/
def load_tasks (fs : TasksFileState) : Except PyError Json :=
  match fs with
  | .missing => .ok (.arr [])
  | .undecodable => .ok (.arr [])
  | .holds doc => pyDictGet doc "tasks" (.arr [])

/-! ## The atomic writer (`utils/file_io.py`) -/

/-- A value handed to `json.dump`: either serializable (with its
rendering) or not (`TypeError` on serialization). -/
inductive PyObject where
  | jsonable (s : String)
  | unjsonable (tag : String)
deriving DecidableEq, Repr

/-- `json.dump`'s behaviour on a `PyObject`. -/
def serializeJson : PyObject → Option String
  | .jsonable s => some s
  | .unjsonable _ => none

/-- The serialization failure re-raised by `atomic_write_json`. -/
inductive WriteError where
  | serializationError
deriving DecidableEq, Repr

/-- The slice of the filesystem `atomic_write_json` touches for a given
`filepath`: the contents (or absence) of the target file, its `.bak`
sibling and its `.tmp` sibling. -/
structure FsState where
  target : Option String
  bak : Option String
  tmp : Option String
deriving DecidableEq, Repr

/-- `atomic_write_json(filepath, data)` over the modelled filesystem:
back up an existing target, serialize into the temp file, atomically
replace the target and drop the backup; on a serialization failure,
delete the temp file, restore the target from the backup when one
exists, and re-raise. -/
def atomic_write_json (fs : FsState) (data : PyObject) :
    Except WriteError Unit × FsState :=
  let fs1 : FsState :=
    match fs.target with
    | some c => ⟨fs.target, some c, fs.tmp⟩
    | none => fs
  match serializeJson data with
  | some s =>
    (.ok (), ⟨some s, none, none⟩)
  | none =>
    let fs2 : FsState := ⟨fs1.target, fs1.bak, some ""⟩
    let fs3 : FsState := ⟨fs2.target, fs2.bak, none⟩
    let fs4 : FsState :=
      match fs3.bak with
      | some c => ⟨some c, fs3.bak, fs3.tmp⟩
      | none => fs3
    (.error .serializationError, fs4)

/-! ## Claim theorems -/

/-- Claim C1: for every notification key (task id, target time, kind) the
trigger-check returns `true` exactly when the key is not yet in the
fired-set and the absolute difference between the current and target
times is at most 60 seconds; a `true` result records the key, the
fired-set never loses keys, and every subsequent check of the same key
returns `false` — at most one firing per key. -/
theorem claim_C1_trigger_once (fired : FiredSet) (current target : DateTime)
    (taskId kind : String) :
    ((shouldTriggerNotification fired current target taskId kind).1 = true ↔
      (mkNotificationKey taskId target kind ∉ fired ∧
        timeDiffMicros current target ≤ 60 * 1000000))
    ∧ ((shouldTriggerNotification fired current target taskId kind).1 = true →
        mkNotificationKey taskId target kind ∈
          (shouldTriggerNotification fired current target taskId kind).2)
    ∧ (∀ s : FiredSet, mkNotificationKey taskId target kind ∈ s →
        (shouldTriggerNotification s current target taskId kind).1 = false)
    ∧ (∀ (s : FiredSet) (k : NotificationKey), k ∈ s →
        k ∈ (shouldTriggerNotification s current target taskId kind).2)
    ∧ (∀ current2 : DateTime,
        (shouldTriggerNotification fired current target taskId kind).1 = true →
        (shouldTriggerNotification
          (shouldTriggerNotification fired current target taskId kind).2
          current2 target taskId kind).1 = false) := by
  have hmain : ∀ (s : FiredSet) (cur : DateTime),
      (shouldTriggerNotification s cur target taskId kind).1 = true ↔
        (mkNotificationKey taskId target kind ∉ s ∧
          timeDiffMicros cur target ≤ 60 * 1000000) := by
    intro s cur
    by_cases hm : mkNotificationKey taskId target kind ∈ s
    · simp [shouldTriggerNotification, hm]
    · by_cases hd : timeDiffMicros cur target ≤ 60 * 1000000
      · simp [shouldTriggerNotification, hm, hd]
      · simp [shouldTriggerNotification, hm, hd]
  have hkey : ∀ (s : FiredSet) (cur : DateTime),
      (shouldTriggerNotification s cur target taskId kind).1 = true →
      mkNotificationKey taskId target kind ∈
        (shouldTriggerNotification s cur target taskId kind).2 := by
    intro s cur h
    rcases (hmain s cur).mp h with ⟨hm, hd⟩
    simp [shouldTriggerNotification, hm, hd]
  have hfalse : ∀ (s : FiredSet) (cur : DateTime),
      mkNotificationKey taskId target kind ∈ s →
      (shouldTriggerNotification s cur target taskId kind).1 = false := by
    intro s cur hs
    cases hres : (shouldTriggerNotification s cur target taskId kind).1 with
    | false => rfl
    | true => exact absurd hs ((hmain s cur).mp hres).1
  refine ⟨hmain fired current, hkey fired current,
    fun s => hfalse s current, ?_, ?_⟩
  · intro s k hk
    by_cases hm : mkNotificationKey taskId target kind ∈ s
    · simpa [shouldTriggerNotification, hm] using hk
    · by_cases hd : timeDiffMicros current target ≤ 60 * 1000000
      · simp [shouldTriggerNotification, hm, hd]
        exact Or.inr hk
      · simpa [shouldTriggerNotification, hm, hd] using hk
  · intro current2 h
    exact hfalse _ current2 (hkey fired current h)

/-- Concrete instance of claim C1: with current time 14:30:00, a
14:30:00 target fires then de-duplicates, a 14:31:00 target (60 s away)
fires, and a 14:32:00 target (120 s away) does not. -/
theorem claim_C1_witness :
    (shouldTriggerNotification [] ⟨739901, 14, 30, 0, 0⟩
      ⟨739901, 14, 30, 0, 0⟩ "task_001" "main").1 = true
    ∧ (shouldTriggerNotification
        (shouldTriggerNotification [] ⟨739901, 14, 30, 0, 0⟩
          ⟨739901, 14, 30, 0, 0⟩ "task_001" "main").2
        ⟨739901, 14, 30, 0, 0⟩ ⟨739901, 14, 30, 0, 0⟩ "task_001" "main").1
        = false
    ∧ (shouldTriggerNotification [] ⟨739901, 14, 30, 0, 0⟩
        ⟨739901, 14, 31, 0, 0⟩ "task_001" "main").1 = true
    ∧ (shouldTriggerNotification [] ⟨739901, 14, 30, 0, 0⟩
        ⟨739901, 14, 32, 0, 0⟩ "task_001" "main").1 = false := by
  have h1 := claim_C1_trigger_once [] ⟨739901, 14, 30, 0, 0⟩
    ⟨739901, 14, 30, 0, 0⟩ "task_001" "main"
  have h2 := claim_C1_trigger_once [] ⟨739901, 14, 30, 0, 0⟩
    ⟨739901, 14, 31, 0, 0⟩ "task_001" "main"
  have h3 := claim_C1_trigger_once [] ⟨739901, 14, 30, 0, 0⟩
    ⟨739901, 14, 32, 0, 0⟩ "task_001" "main"
  have hfire := h1.1.mpr ⟨by decide, by decide⟩
  refine ⟨hfire, h1.2.2.2.2 ⟨739901, 14, 30, 0, 0⟩ hfire,
    h2.1.mpr ⟨by decide, by decide⟩, ?_⟩
  cases hres : (shouldTriggerNotification [] ⟨739901, 14, 30, 0, 0⟩
      ⟨739901, 14, 32, 0, 0⟩ "task_001" "main").1 with
  | false => rfl
  | true => exact absurd (h3.1.mp hres).2 (by decide)

/-- Unfolding lemma for the completion predicate: when a task with the
given id is stored, `_is_task_completed` holds exactly when the count of
`completed=true` entries for that id on that date reaches the current
sub-item count and that count is positive. -/
theorem is_task_completed_iff (tasks : List Task) (logs : List LogEntry)
    (task_id date : String) (task : Task)
    (hfind : tasks.find? (fun t => t.id = task_id) = some task) :
    (is_task_completed tasks logs task_id date = true ↔
      ((logs.filter (fun log => log.date = date ∧ log.task_id = task_id ∧
          log.completed)).length ≥ task.task_names.length ∧
        task.task_names.length > 0)) := by
  have hpred : ∀ log : LogEntry,
      (decide (log.task_id = task_id ∧ log.completed = true) &&
        decide (log.date = date)) =
      decide (log.date = date ∧ log.task_id = task_id ∧
        log.completed = true) := by
    intro log
    by_cases h1 : log.date = date <;> by_cases h2 : log.task_id = task_id <;>
      by_cases h3 : log.completed = true <;> simp [h1, h2, h3]
  simp only [is_task_completed, get_logs_by_date, List.filter_filter, hfind,
    decide_eq_true_eq]
  rw [List.filter_congr (fun a _ => hpred a)]

/-- Claim C2: when a task with the given id is stored, the completion
predicate holds exactly when the number of `completed=true` log entries
for that id on that date reaches the current number of sub-items and
that number is positive; a task with zero sub-items is never fully
completed. -/
theorem claim_C2_completion_count (tasks : List Task) (logs : List LogEntry)
    (task_id date : String) (task : Task)
    (hfind : tasks.find? (fun t => t.id = task_id) = some task) :
    (is_task_completed tasks logs task_id date = true ↔
      ((logs.filter (fun log => log.date = date ∧ log.task_id = task_id ∧
          log.completed)).length ≥ task.task_names.length ∧
        task.task_names.length > 0))
    ∧ (task.task_names = [] →
        is_task_completed tasks logs task_id date = false) := by
  refine ⟨is_task_completed_iff tasks logs task_id date task hfind, ?_⟩
  intro hnil
  cases hres : is_task_completed tasks logs task_id date with
  | false => rfl
  | true =>
    have := ((is_task_completed_iff tasks logs task_id date task
      hfind).mp hres).2
    rw [hnil] at this
    simp at this

/-- Concrete instance of claim C2: with sub-items `["A","B"]`, logging
`completed=true` for "A" only leaves the task incomplete; logging both
completes it. -/
theorem claim_C2_witness :
    is_task_completed
      [⟨"task_001", some "14:30", ["A", "B"], true, "2026-01-05", none⟩]
      [⟨"2026-01-05", "14:35", "task_001", "A", true⟩]
      "task_001" "2026-01-05" = false
    ∧ is_task_completed
      [⟨"task_001", some "14:30", ["A", "B"], true, "2026-01-05", none⟩]
      [⟨"2026-01-05", "14:35", "task_001", "A", true⟩,
       ⟨"2026-01-05", "14:36", "task_001", "B", true⟩]
      "task_001" "2026-01-05" = true := by
  have hneg := claim_C2_completion_count
    [⟨"task_001", some "14:30", ["A", "B"], true, "2026-01-05", none⟩]
    [⟨"2026-01-05", "14:35", "task_001", "A", true⟩]
    "task_001" "2026-01-05"
    ⟨"task_001", some "14:30", ["A", "B"], true, "2026-01-05", none⟩
    (by decide)
  have hpos := claim_C2_completion_count
    [⟨"task_001", some "14:30", ["A", "B"], true, "2026-01-05", none⟩]
    [⟨"2026-01-05", "14:35", "task_001", "A", true⟩,
     ⟨"2026-01-05", "14:36", "task_001", "B", true⟩]
    "task_001" "2026-01-05"
    ⟨"task_001", some "14:30", ["A", "B"], true, "2026-01-05", none⟩
    (by decide)
  refine ⟨?_, hpos.1.mpr (by decide)⟩
  cases hres : is_task_completed
      [⟨"task_001", some "14:30", ["A", "B"], true, "2026-01-05", none⟩]
      [⟨"2026-01-05", "14:35", "task_001", "A", true⟩]
      "task_001" "2026-01-05" with
  | false => rfl
  | true => exact absurd (hneg.1.mp hres).1 (by decide)

/-- A base time produced by `get_task_base_time` has well-formed fields:
hour and minute were range-checked and seconds/microseconds are zeroed. -/
theorem get_task_base_time_valid (task : Task) (now : DateTime)
    (bt : DateTime) (h : get_task_base_time task now = some bt) :
    bt.Valid := by
  simp only [get_task_base_time] at h
  split at h
  · exact absurd h (by simp)
  · split at h
    · exact absurd h (by simp)
    · split at h
      · split at h
        · split at h
          next hrange =>
            rw [Option.some_inj] at h
            subst h
            simp only [DateTime.Valid]
            omega
          · exact absurd h (by simp)
        · exact absurd h (by simp)
      · exact absurd h (by simp)

/-- Adding zero minutes to a well-formed datetime is the identity: the
microsecond count renormalises to the same fields. -/
theorem addMinutes_zero (dt : DateTime) (h : dt.Valid) :
    dt.addMinutes 0 = dt := by
  obtain ⟨day, hour, minute, second, usec⟩ := dt
  simp only [DateTime.Valid] at h
  obtain ⟨h1, h2, h3, h4⟩ := h
  simp only [DateTime.addMinutes, DateTime.toMicros, DateTime.mk.injEq]
  refine ⟨?_, ?_, ?_, ?_, ?_⟩ <;> omega

/-- Claim C5: `get_task_base_time` yields `none` on a missing time
field, a string that does not split into two integer parts, or an
out-of-range hour or minute; on a valid "H:M" it returns the current
time with hour and minute replaced and seconds/microseconds zeroed, and
a `none` base time makes `calculate_notification_times` return all-none. -/
theorem claim_C5_invalid_time (task : Task) (now : DateTime) :
    (task.time = none → get_task_base_time task now = none)
    ∧ (∀ s : String, task.time = some s →
        (splitChars ':' s.data).length ≠ 2 →
        get_task_base_time task now = none)
    ∧ (∀ (s : String) (hs ms : List Char), task.time = some s →
        splitChars ':' s.data = [hs, ms] →
        (pyToInt (String.mk hs) = none ∨ pyToInt (String.mk ms) = none) →
        get_task_base_time task now = none)
    ∧ (∀ (s : String) (hs ms : List Char) (hour minute : Int),
        task.time = some s → splitChars ':' s.data = [hs, ms] →
        pyToInt (String.mk hs) = some hour →
        pyToInt (String.mk ms) = some minute →
        ¬(0 ≤ hour ∧ hour ≤ 23 ∧ 0 ≤ minute ∧ minute ≤ 59) →
        get_task_base_time task now = none)
    ∧ (∀ (s : String) (hs ms : List Char) (hour minute : Int),
        task.time = some s → splitChars ':' s.data = [hs, ms] →
        pyToInt (String.mk hs) = some hour →
        pyToInt (String.mk ms) = some minute →
        (0 ≤ hour ∧ hour ≤ 23 ∧ 0 ≤ minute ∧ minute ≤ 59) →
        get_task_base_time task now =
          some ⟨now.day, hour.toNat, minute.toNat, 0, 0⟩)
    ∧ (get_task_base_time task now = none →
        calculate_notification_times task now none = ⟨none, none, none⟩) := by
  have hempty : ∀ (s : String) (hs ms : List Char),
      splitChars ':' s.data = [hs, ms] → ¬ s = "" := by
    intro s hs ms hsplit h
    subst h
    have h0 : splitChars ':' ("" : String).data = [[]] := rfl
    rw [h0] at hsplit
    simp at hsplit
  refine ⟨?_, ?_, ?_, ?_, ?_, ?_⟩
  · intro h
    simp [get_task_base_time, h]
  · intro s hts hlen
    simp only [get_task_base_time, hts]
    by_cases h0 : s = ""
    · simp [h0]
    · rw [if_neg h0]
      split
      next hs ms heq =>
        rw [heq] at hlen
        simp at hlen
      · rfl
  · intro s hs ms hts hsplit hbad
    simp only [get_task_base_time, hts, if_neg (hempty s hs ms hsplit),
      hsplit]
    split
    next hour minute hh hm =>
      rcases hbad with hbad | hbad
      · rw [hbad] at hh
        exact absurd hh (by simp)
      · rw [hbad] at hm
        exact absurd hm (by simp)
    · rfl
  · intro s hs ms hour minute hts hsplit hh hm hrange
    simp only [get_task_base_time, hts, if_neg (hempty s hs ms hsplit),
      hsplit, hh, hm]
    rw [if_neg hrange]
  · intro s hs ms hour minute hts hsplit hh hm hrange
    simp only [get_task_base_time, hts, if_neg (hempty s hs ms hsplit),
      hsplit, hh, hm]
    rw [if_pos hrange]
  · intro h
    simp [calculate_notification_times, h]

/-- Concrete instance of claim C5: a task whose time is "25:00" has no
base time, and its notification times are all `none`. -/
theorem claim_C5_witness :
    get_task_base_time ⟨"t1", some "25:00", ["A"], true, "2026-01-01", none⟩
      ⟨739901, 9, 15, 33, 12⟩ = none
    ∧ calculate_notification_times
      ⟨"t1", some "25:00", ["A"], true, "2026-01-01", none⟩
      ⟨739901, 9, 15, 33, 12⟩ none = ⟨none, none, none⟩ := by
  have h := claim_C5_invalid_time
    ⟨"t1", some "25:00", ["A"], true, "2026-01-01", none⟩
    ⟨739901, 9, 15, 33, 12⟩
  have hbase := h.2.2.2.1 "25:00" ['2', '5'] ['0', '0'] 25 0 rfl (by decide)
    (by decide) (by decide) (by decide)
  exact ⟨hbase, h.2.2.2.2.2 hbase⟩

/-- Claim C6: with a valid base time, the notification instants are
`pre = base − pre_notification_minutes`, `main = base` and
`warning = base + warning_minutes`; each schedule field independently
defaults to 5 when absent (or when the whole `schedule` is absent), and
a zero-minute configuration collapses pre/warning onto main. -/
theorem claim_C6_notification_offsets (task : Task) (now bt : DateTime)
    (hbt : get_task_base_time task now = some bt) :
    calculate_notification_times task now none =
      ⟨some (bt.addMinutes
          (-(get_schedule_config task).pre_notification_minutes)),
        some bt,
        some (bt.addMinutes (get_schedule_config task).warning_minutes)⟩
    ∧ (task.schedule = none → get_schedule_config task = ⟨5, 5, 5⟩)
    ∧ (∀ sf : ScheduleFields, task.schedule = some sf →
        get_schedule_config task =
          ⟨sf.pre_notification_minutes.getD 5, sf.warning_minutes.getD 5,
            sf.snooze_minutes.getD 5⟩)
    ∧ ((get_schedule_config task).pre_notification_minutes = 0 →
        (calculate_notification_times task now none).pre =
          (calculate_notification_times task now none).main)
    ∧ ((get_schedule_config task).warning_minutes = 0 →
        (calculate_notification_times task now none).warning =
          (calculate_notification_times task now none).main) := by
  have hvalid := get_task_base_time_valid task now bt hbt
  have hcalc : calculate_notification_times task now none =
      ⟨some (bt.addMinutes
          (-(get_schedule_config task).pre_notification_minutes)),
        some bt,
        some (bt.addMinutes (get_schedule_config task).warning_minutes)⟩ := by
    simp [calculate_notification_times, hbt]
  refine ⟨hcalc, ?_, ?_, ?_, ?_⟩
  · intro h
    simp [get_schedule_config, h, DEFAULT_MINUTES]
  · intro sf h
    simp [get_schedule_config, h, DEFAULT_MINUTES]
  · intro h0
    rw [hcalc]
    simp only [h0, neg_zero]
    exact congrArg some (addMinutes_zero bt hvalid)
  · intro h0
    rw [hcalc]
    simp only [h0]
    exact congrArg some (addMinutes_zero bt hvalid)

/-- Concrete instance of claim C6: a "14:30" task with no schedule
object gets pre 14:25, main 14:30, warning 14:35. -/
theorem claim_C6_witness :
    calculate_notification_times
      ⟨"task_001", some "14:30", ["A"], true, "2026-01-01", none⟩
      ⟨739901, 9, 0, 0, 0⟩ none =
      ⟨some ⟨739901, 14, 25, 0, 0⟩, some ⟨739901, 14, 30, 0, 0⟩,
        some ⟨739901, 14, 35, 0, 0⟩⟩ := by
  rw [(claim_C6_notification_offsets
    ⟨"task_001", some "14:30", ["A"], true, "2026-01-01", none⟩
    ⟨739901, 9, 0, 0, 0⟩ ⟨739901, 14, 30, 0, 0⟩ (by decide)).1]
  decide

/-- Claim C7: an override stored for the exact date decides inclusion;
with no override, `exclude_weekends = true` includes exactly
Monday–Friday (weekday < 5), and `exclude_weekends = false` includes
every day. -/
theorem claim_C7_day_inclusion (overrides : CalendarOverrides) (ew : Bool)
    (d : PyDate) :
    (∀ b : Bool, (get_month_overrides overrides d.year d.month).lookup
        (fmtDateStr d.year d.month d.day) = some b →
      is_date_included overrides ew d = b)
    ∧ ((get_month_overrides overrides d.year d.month).lookup
        (fmtDateStr d.year d.month d.day) = none → ew = true →
      (is_date_included overrides ew d = true ↔ pyWeekday d < 5))
    ∧ ((get_month_overrides overrides d.year d.month).lookup
        (fmtDateStr d.year d.month d.day) = none → ew = false →
      is_date_included overrides ew d = true) := by
  refine ⟨?_, ?_, ?_⟩
  · intro b hb
    simp [is_date_included, hb]
  · intro hn hew
    subst hew
    simp [is_date_included, hn]
  · intro hn hew
    subst hew
    simp [is_date_included, hn]

/-- Concrete instances of claim C7: 2026-10-10 is a Saturday and
2026-10-12 a Monday; an override wins in both directions, and without
an override the weekend rule (or the always-include fallback) decides. -/
theorem claim_C7_witness :
    is_date_included
      [("2026-10", [("2026-10-10", true), ("2026-10-12", false)])]
      true ⟨2026, 10, 10⟩ = true
    ∧ is_date_included
      [("2026-10", [("2026-10-10", true), ("2026-10-12", false)])]
      true ⟨2026, 10, 12⟩ = false
    ∧ is_date_included [] true ⟨2026, 10, 10⟩ = false
    ∧ is_date_included [] true ⟨2026, 10, 12⟩ = true
    ∧ is_date_included [] false ⟨2026, 10, 10⟩ = true := by
  refine ⟨(claim_C7_day_inclusion
      [("2026-10", [("2026-10-10", true), ("2026-10-12", false)])]
      true ⟨2026, 10, 10⟩).1 true (by decide),
    (claim_C7_day_inclusion
      [("2026-10", [("2026-10-10", true), ("2026-10-12", false)])]
      true ⟨2026, 10, 12⟩).1 false (by decide),
    ?_,
    ((claim_C7_day_inclusion [] true ⟨2026, 10, 12⟩).2.1 (by decide)
      rfl).mpr (by decide),
    (claim_C7_day_inclusion [] false ⟨2026, 10, 10⟩).2.2 (by decide) rfl⟩
  cases hres : is_date_included [] true ⟨2026, 10, 10⟩ with
  | false => rfl
  | true =>
    exact absurd (((claim_C7_day_inclusion [] true ⟨2026, 10, 10⟩).2.1
      (by decide) rfl).mp hres) (by decide)

/-- Claim C9: `update_task` changes only the provided fields of the
first task whose id matches, leaves its other fields, every other task
and the order unchanged, and is a no-op when no id matches. -/
theorem claim_C9_update_frame (task_id : String) (time : Option String)
    (names : Option (List String)) (enabled : Option Bool) :
    (∀ l : List Task, (∀ u ∈ l, u.id ≠ task_id) →
      update_task l task_id time names enabled = l)
    ∧ (∀ (l₁ l₂ : List Task) (t : Task), t.id = task_id →
        (∀ u ∈ l₁, u.id ≠ task_id) →
        update_task (l₁ ++ t :: l₂) task_id time names enabled =
          l₁ ++ applyTaskUpdate t time names enabled :: l₂)
    ∧ (∀ t : Task,
        (applyTaskUpdate t time names enabled).id = t.id
        ∧ (applyTaskUpdate t time names enabled).created_date =
            t.created_date
        ∧ (applyTaskUpdate t time names enabled).schedule = t.schedule
        ∧ (time = none → (applyTaskUpdate t time names enabled).time =
            t.time)
        ∧ (∀ v, time = some v →
            (applyTaskUpdate t time names enabled).time = some v)
        ∧ (names = none →
            (applyTaskUpdate t time names enabled).task_names =
              t.task_names)
        ∧ (∀ v, names = some v →
            (applyTaskUpdate t time names enabled).task_names = v)
        ∧ (enabled = none →
            (applyTaskUpdate t time names enabled).enabled = t.enabled)
        ∧ (∀ v, enabled = some v →
            (applyTaskUpdate t time names enabled).enabled = v)) := by
  refine ⟨?_, ?_, ?_⟩
  · intro l hl
    induction l with
    | nil => rfl
    | cons t ts ih =>
      have hne : t.id ≠ task_id := hl t (by simp)
      simp only [update_task, if_neg hne]
      rw [ih (fun u hu => hl u (by simp [hu]))]
  · intro l₁ l₂ t ht hl₁
    induction l₁ with
    | nil => simp [update_task, ht]
    | cons u us ih =>
      have hne : u.id ≠ task_id := hl₁ u (by simp)
      simp only [List.cons_append, update_task, if_neg hne, List.append_eq]
      rw [ih (fun v hv => hl₁ v (by simp [hv]))]
  · intro t
    refine ⟨rfl, rfl, rfl, ?_, ?_, ?_, ?_, ?_, ?_⟩
    · intro h
      subst h
      rfl
    · intro v h
      subst h
      rfl
    · intro h
      subst h
      rfl
    · intro v h
      subst h
      rfl
    · intro h
      subst h
      rfl
    · intro v h
      subst h
      rfl

/-- Concrete instance of claim C9: updating the time of `task_002`
rewrites exactly that field of that task. -/
theorem claim_C9_witness :
    update_task
      [⟨"task_001", some "09:00", ["A"], true, "2026-01-01", none⟩,
       ⟨"task_002", some "09:30", ["B"], false, "2026-01-02", none⟩]
      "task_002" (some "10:00") none none =
      [⟨"task_001", some "09:00", ["A"], true, "2026-01-01", none⟩,
       ⟨"task_002", some "10:00", ["B"], false, "2026-01-02", none⟩] := by
  have h := (claim_C9_update_frame "task_002" (some "10:00") none none).2.1
    [⟨"task_001", some "09:00", ["A"], true, "2026-01-01", none⟩] []
    ⟨"task_002", some "09:30", ["B"], false, "2026-01-02", none⟩
    rfl (by decide)
  simpa [applyTaskUpdate] using h

/-- Claim C10: the completion predicate counts entries without comparing
sub-item names — any `n` completed entries for the task id and date
complete a task with `n` sub-items, renaming `task_name` in every log
entry never changes the predicate, and `add_log` appends without
de-duplication. -/
theorem claim_C10_names_not_compared (tasks : List Task)
    (logs : List LogEntry) (task_id date : String) (task : Task)
    (hfind : tasks.find? (fun t => t.id = task_id) = some task)
    (hn : task.task_names.length > 0)
    (hcount : (logs.filter (fun log => log.date = date ∧
        log.task_id = task_id ∧ log.completed)).length ≥
      task.task_names.length) :
    is_task_completed tasks logs task_id date = true
    ∧ (∀ (logs2 : List LogEntry) (f : String → String),
        is_task_completed tasks (logs2.map (fun log =>
          ⟨log.date, log.time, log.task_id, f log.task_name,
            log.completed⟩)) task_id date =
          is_task_completed tasks logs2 task_id date)
    ∧ (∀ (logs2 : List LogEntry) (tid name : String) (completed : Bool)
        (nd nt : String),
        add_log logs2 tid name completed nd nt =
          logs2 ++ [⟨nd, nt, tid, name, completed⟩]) := by
  refine ⟨(is_task_completed_iff tasks logs task_id date task hfind).mpr
    ⟨hcount, hn⟩, ?_, fun _ _ _ _ _ _ => rfl⟩
  intro logs2 f
  simp only [is_task_completed, get_logs_by_date, List.filter_map,
    List.length_map, Function.comp_def]

/-- Concrete instance of claim C10: two completed entries that both name
sub-item "A" complete a task whose sub-items are `["A", "B"]`, although
"B" was never logged. -/
theorem claim_C10_witness :
    is_task_completed
      [⟨"task_001", some "14:30", ["A", "B"], true, "2026-01-05", none⟩]
      [⟨"2026-01-05", "14:35", "task_001", "A", true⟩,
       ⟨"2026-01-05", "14:36", "task_001", "A", true⟩]
      "task_001" "2026-01-05" = true :=
  (claim_C10_names_not_compared
    [⟨"task_001", some "14:30", ["A", "B"], true, "2026-01-05", none⟩]
    [⟨"2026-01-05", "14:35", "task_001", "A", true⟩,
     ⟨"2026-01-05", "14:36", "task_001", "A", true⟩]
    "task_001" "2026-01-05"
    ⟨"task_001", some "14:30", ["A", "B"], true, "2026-01-05", none⟩
    (by decide) (by decide) (by decide)).1

/-! ## Distinctness of assigned task ids (claim C3) -/

/-- Value of a most-significant-first digit list. -/
def msdVal : List Nat → Nat
  | [] => 0
  | d :: l => d * 10 ^ l.length + msdVal l

theorem msdVal_append_single (l : List Nat) (d : Nat) :
    msdVal (l ++ [d]) = 10 * msdVal l + d := by
  induction l with
  | nil => simp [msdVal]
  | cons e l ih =>
    simp only [List.cons_append, msdVal, List.append_eq, ih,
      List.length_append, List.length_cons, List.length_nil, pow_succ]
    ring

theorem natRevDigitsAux_val (fuel : Nat) :
    ∀ n : Nat, n < fuel → msdVal ((natRevDigitsAux fuel n).reverse) = n := by
  induction fuel with
  | zero => intro n hn; omega
  | succ fuel ih =>
    intro n hn
    by_cases h : n < 10
    · simp [natRevDigitsAux, h, msdVal]
    · have hrec : n / 10 < fuel := by omega
      simp only [natRevDigitsAux, if_neg h, List.reverse_cons,
        msdVal_append_single, ih (n / 10) hrec]
      omega

theorem natRevDigits_val (n : Nat) :
    msdVal ((natRevDigits n).reverse) = n :=
  natRevDigitsAux_val (n + 1) n (Nat.lt_succ_self n)

theorem natRevDigitsAux_lt_ten (fuel : Nat) :
    ∀ n d : Nat, d ∈ natRevDigitsAux fuel n → d < 10 := by
  induction fuel with
  | zero => intro n d hd; simp [natRevDigitsAux] at hd
  | succ fuel ih =>
    intro n d hd
    by_cases h : n < 10
    · simp [natRevDigitsAux, h] at hd
      omega
    · simp only [natRevDigitsAux, if_neg h, List.mem_cons] at hd
      rcases hd with hd | hd
      · omega
      · exact ih (n / 10) d hd

theorem charDigitVal_digitChar : ∀ d : Nat, d < 10 →
    charDigitVal (digitChar d) = d := by decide

theorem map_charDigitVal_digitChar (l : List Nat) (h : ∀ d ∈ l, d < 10) :
    (l.map digitChar).map charDigitVal = l := by
  induction l with
  | nil => rfl
  | cons d l ih =>
    simp only [List.map_cons, List.cons.injEq]
    exact ⟨charDigitVal_digitChar d (h d (by simp)),
      ih (fun e he => h e (by simp [he]))⟩

/-- Numeric value read back from a character rendering. -/
def charsVal (l : List Char) : Nat := msdVal (l.map charDigitVal)

theorem msdVal_replicate_zero (k : Nat) (l : List Nat) :
    msdVal (List.replicate k 0 ++ l) = msdVal l := by
  induction k with
  | zero => rfl
  | succ k ih => simp [List.replicate_succ, msdVal, ih]

theorem charsVal_padNatChars (width n : Nat) :
    charsVal (padNatChars width n) = n := by
  have hds : ((natRevDigits n).reverse.map digitChar).map charDigitVal =
      (natRevDigits n).reverse := by
    refine map_charDigitVal_digitChar _ (fun d hd => ?_)
    exact natRevDigitsAux_lt_ten (n + 1) n d (List.mem_reverse.mp hd)
  simp only [charsVal, padNatChars, List.map_append, List.map_replicate,
    charDigitVal, msdVal_replicate_zero, hds, natRevDigits_val]

theorem padNat3_injective : Function.Injective padNat3 := by
  intro m n h
  have hdata : padNatChars 3 m = padNatChars 3 n := congrArg String.data h
  have := congrArg charsVal hdata
  rwa [charsVal_padNatChars, charsVal_padNatChars] at this

theorem taskIdStr_injective :
    Function.Injective (fun n => "task_" ++ padNat3 n) := by
  intro m n h
  simp only at h
  have hdata := congrArg String.data h
  simp only [String.data_append] at hdata
  have := List.append_cancel_left hdata
  exact padNat3_injective (congrArg String.mk this)

/-- Does a store operation add a task? -/
def TaskStoreOp.isAdd : TaskStoreOp → Bool
  | .add _ _ _ _ => true
  | .del _ => false

/-- The ids `add_task` assigns to `cnt` consecutive additions on top of
`start` existing tasks. -/
def expectedIds (start cnt : Nat) : List String :=
  (List.range cnt).map (fun i => "task_" ++ padNat3 (start + i + 1))

theorem expectedIds_succ (start cnt : Nat) :
    expectedIds start (cnt + 1) =
      ("task_" ++ padNat3 (start + 1)) :: expectedIds (start + 1) cnt := by
  simp only [expectedIds, List.range_succ_eq_map, List.map_cons,
    List.map_map, Function.comp_def, Nat.add_zero]
  congr 1
  apply List.map_congr_left
  intro i _
  congr 2
  omega

theorem runAddOnly_ids (ops : List TaskStoreOp)
    (h : ∀ op ∈ ops, op.isAdd = true) :
    ∀ acc : List Task,
      ((ops.foldl applyTaskStoreOp acc).map Task.id) =
        acc.map Task.id ++ expectedIds acc.length ops.length := by
  induction ops with
  | nil => intro acc; simp [expectedIds]
  | cons op rest ih =>
    intro acc
    cases op with
    | del tid =>
      have hfalse := h (TaskStoreOp.del tid) (by simp)
      simp [TaskStoreOp.isAdd] at hfalse
    | add time names enabled today =>
      have hrest : ∀ op ∈ rest, op.isAdd = true :=
        fun op hop => h op (by simp [hop])
      simp only [List.foldl_cons, applyTaskStoreOp, add_task]
      rw [ih hrest]
      simp only [List.map_append, List.map_cons, List.map_nil,
        List.length_append, List.length_cons, List.length_nil,
        List.append_assoc, List.cons_append, List.nil_append]
      rw [expectedIds_succ]

theorem expectedIds_nodup (start cnt : Nat) :
    (expectedIds start cnt).Nodup := by
  refine (List.nodup_range cnt).map ?_
  intro a b hab
  have := taskIdStr_injective hab
  omega

/-- Counterexample to claim C3 as stated: add two tasks, delete
`task_001`, add again — `add_task` derives the id from the current
count, so the store now holds two tasks both named `task_002`. -/
theorem claim_C3_counterexample :
    (runTaskStoreOps
      [.add "09:00" ["A"] true "2026-01-01",
       .add "10:00" ["B"] true "2026-01-01",
       .del "task_001",
       .add "11:00" ["C"] true "2026-01-02"]).map Task.id =
      ["task_002", "task_002"]
    ∧ ¬ List.Pairwise (fun a b => a ≠ b)
        ((runTaskStoreOps
          [.add "09:00" ["A"] true "2026-01-01",
           .add "10:00" ["B"] true "2026-01-01",
           .del "task_001",
           .add "11:00" ["C"] true "2026-01-02"]).map Task.id) := by
  constructor
  · rfl
  · decide

/-- Claim C3 (amended): starting from the empty store, a sequence of
`add_task` operations alone yields ids `task_001 … task_N`, which are
pairwise distinct; interleaving `delete_task` can make a later
`add_task` reuse a live id (see the counterexample). -/
theorem claim_C3_amended_unique_ids (ops : List TaskStoreOp)
    (h : ∀ op ∈ ops, op.isAdd = true) :
    (runTaskStoreOps ops).map Task.id =
      (List.range ops.length).map (fun i => "task_" ++ padNat3 (i + 1))
    ∧ List.Pairwise (fun a b => a ≠ b)
        ((runTaskStoreOps ops).map Task.id) := by
  have hids : (runTaskStoreOps ops).map Task.id =
      expectedIds 0 ops.length := by
    have := runAddOnly_ids ops h []
    simpa [runTaskStoreOps] using this
  constructor
  · rw [hids]
    simp [expectedIds, Nat.zero_add]
  · rw [hids]
    exact expectedIds_nodup 0 ops.length

/-- Concrete instance of amended claim C3: three additions produce the
distinct ids `task_001`, `task_002`, `task_003`. -/
theorem claim_C3_witness :
    (runTaskStoreOps
      [.add "09:00" ["A"] true "2026-01-01",
       .add "10:00" ["B"] true "2026-01-01",
       .add "11:00" ["C"] true "2026-01-01"]).map Task.id =
      ["task_001", "task_002", "task_003"]
    ∧ List.Pairwise (fun a b => a ≠ b)
        ((runTaskStoreOps
          [.add "09:00" ["A"] true "2026-01-01",
           .add "10:00" ["B"] true "2026-01-01",
           .add "11:00" ["C"] true "2026-01-01"]).map Task.id) := by
  have h := claim_C3_amended_unique_ids
    [.add "09:00" ["A"] true "2026-01-01",
     .add "10:00" ["B"] true "2026-01-01",
     .add "11:00" ["C"] true "2026-01-01"] (by decide)
  exact ⟨h.1.trans (by decide), h.2⟩

/-- Claim C4: on a non-serializable input, `atomic_write_json` re-raises
the serialization error and the target file afterwards holds exactly the
document it held before: the temp file is deleted and, when a backup was
made, the prior content was copied back over the target.  The hypothesis
`fs.target = none → fs.bak = none` restricts to states the writer itself
can produce (a failed or successful write never leaves a backup behind
without its target file). -/
theorem claim_C4_atomic_error (fs : FsState) (data : PyObject)
    (hreach : fs.target = none → fs.bak = none)
    (hser : serializeJson data = none) :
    (atomic_write_json fs data).1 = .error .serializationError
    ∧ ((atomic_write_json fs data).2).target = fs.target
    ∧ ((atomic_write_json fs data).2).tmp = none
    ∧ (∀ c, fs.target = some c →
        ((atomic_write_json fs data).2).bak = some c) := by
  cases data with
  | jsonable s => simp [serializeJson] at hser
  | unjsonable tag =>
    cases htgt : fs.target with
    | none =>
      have hb := hreach htgt
      simp [atomic_write_json, serializeJson, htgt, hb]
    | some c =>
      simp [atomic_write_json, serializeJson, htgt]

/-- Concrete instance of claim C4: writing a non-serializable object
over a file holding "old" raises and leaves "old" in place. -/
theorem claim_C4_witness :
    (atomic_write_json ⟨some "old", none, none⟩ (.unjsonable "cycle")).1 =
      .error .serializationError
    ∧ ((atomic_write_json ⟨some "old", none, none⟩
        (.unjsonable "cycle")).2).target = some "old"
    ∧ ((atomic_write_json ⟨some "old", none, none⟩
        (.unjsonable "cycle")).2).tmp = none := by
  have h := claim_C4_atomic_error ⟨some "old", none, none⟩
    (.unjsonable "cycle") (by simp) rfl
  exact ⟨h.1, h.2.1, h.2.2.1⟩

/-- Counterexample to claim C8 as stated: a tasks file holding
well-formed JSON whose top level is not an object — here the document
`[]` — makes `load_tasks` raise `AttributeError` (`data.get` does not
exist on a list), so "malformed content never raises" fails. -/
theorem claim_C8_counterexample :
    load_tasks (.holds (.arr [])) = .error .attributeError := rfl

/-- Claim C8 (amended): a missing file or JSON-undecodable content makes
`load_tasks` return the empty sequence without raising, and so does an
object without a "tasks" key; but a decodable document whose top level
is not an object raises `AttributeError` to the caller. -/
theorem claim_C8_amended :
    load_tasks .missing = .ok (.arr [])
    ∧ load_tasks .undecodable = .ok (.arr [])
    ∧ (∀ fields : List (String × Json), fields.lookup "tasks" = none →
        load_tasks (.holds (.obj fields)) = .ok (.arr []))
    ∧ (∀ doc : Json, (∀ fields : List (String × Json), doc ≠ .obj fields) →
        load_tasks (.holds doc) = .error .attributeError) := by
  refine ⟨rfl, rfl, ?_, ?_⟩
  · intro fields hf
    simp [load_tasks, pyDictGet, hf]
  · intro doc hdoc
    cases doc with
    | obj fields => exact absurd rfl (hdoc fields)
    | null => rfl
    | bool b => rfl
    | num n => rfl
    | str s => rfl
    | arr xs => rfl

/-- Concrete instances of amended claim C8: an object without a "tasks"
key loads as the empty list, while a top-level string raises. -/
theorem claim_C8_witness :
    load_tasks (.holds (.obj [("other", .null)])) = .ok (.arr [])
    ∧ load_tasks (.holds (.str "not an object")) =
        .error .attributeError := by
  have h := claim_C8_amended
  exact ⟨h.2.2.1 [("other", .null)] rfl,
    h.2.2.2 (.str "not an object") (fun fields hf => Json.noConfusion hf)⟩

end TaskReminder
